import Mathlib

/-!
Shallow embedding of `bouncehandler.go`: an HTTP endpoint that receives
AWS SNS bounce/complaint notifications and routes bounced recipient
addresses to per-sender bounded queues, each drained by one worker.

The embedding models the handler's pure decision logic.  JSON decoding is
external to the program (package `encoding/json`), so decode outcomes are
inputs: `Option snsMsg` for the outer envelope and `Option payload` for
the inner message (`none` models a decode error).  Channels are modelled
as lists with the fixed capacity `100` from `make(chan string, 100)`; the
non-blocking `select { case ch <- r.Email: default: ... }` becomes a
length test.  Log output and the outbound confirmation GET are recorded
as effect lists in the result.
-/

/-- Recipient record of a bounce payload (`bouncedRecipients` entries). -/
structure bouncedRecipient where
  email : String
  diagnostic : String
  deriving Repr, DecidableEq

/-- The `bounce` sub-object of the inner payload. -/
structure bounceInfo where
  type : String
  recipients : List bouncedRecipient
  deriving Repr, DecidableEq

/-- Recipient record of a complaint payload (`complainedRecipients` entries). -/
structure complainedRecipient where
  email : String
  feedback : String
  deriving Repr, DecidableEq

/-- The `complaint` sub-object of the inner payload. -/
structure complaintInfo where
  recipients : List complainedRecipient
  deriving Repr, DecidableEq

/-- The `mail` sub-object of the inner payload. -/
structure mailInfo where
  source : String
  deriving Repr, DecidableEq

/-- Inner payload (`payload` struct in the source): notification type,
originating mail source, and optional bounce/complaint sub-objects. -/
structure payload where
  type : String
  mail : mailInfo
  bounce : Option bounceInfo
  complaint : Option complaintInfo
  deriving Repr, DecidableEq

/-- Outer SNS envelope (`snsMsg` struct in the source). -/
structure snsMsg where
  type : String
  url : String
  message : String
  deriving Repr, DecidableEq

/-- Handler state used by `ServeHTTP`: basic-auth credentials and the
registry mapping sender address to the contents of its queue (the model
of `map[string]chan string`). -/
structure handler where
  user : String
  pass : String
  m : List (String × List String)
  deriving Repr, DecidableEq

/-- Capacity of every per-sender queue: `make(chan string, 100)`. -/
def queueCap : Nat := 100

/-- The wildcard registry key, `const defaultKey = "*"`. -/
def defaultKey : String := "*"

/-- Structured model of the handler's log lines. -/
inductive LogEvent where
  | decodeError
  | innerDecodeError
  | confirmFollow (url : String)
  | unsupportedSnsType (t : String)
  | unsupportedMsgType (t : String)
  | unconfiguredSender (sender : String)
  | bounceAttempt (sender email diagnostic : String)
  | complaintAttempt (sender email feedback : String)
  | overflow (sender email : String)
  deriving Repr, DecidableEq

/-- Result of one `ServeHTTP` call: status code, whether the
`WWW-Authenticate` challenge header was set, outbound confirmation GETs,
log events, the resolved queue key, the per-loop enqueued and dropped
addresses, and the updated registry. -/
structure HttpResult where
  status : Nat
  authChallenge : Bool
  confirms : List String
  logs : List LogEvent
  resolvedKey : Option String
  bounceEnqueued : List String
  bounceOverflow : List String
  complaintEnqueued : List String
  complaintOverflow : List String
  registry : List (String × List String)
  deriving Repr, DecidableEq

/-- Association-list lookup modelling Go map indexing `h.m[k]`. -/
def lookupKey (m : List (String × List String)) (k : String) : Option (List String) :=
  match m with
  | [] => none
  | (k', q) :: rest => if k' = k then some q else lookupKey rest k

/-- Replace the queue stored under key `k` (model of sending on the
channel found at that key). -/
def setQueue : List (String × List String) → String → List String →
    List (String × List String)
  | [], _, _ => []
  | (k', q') :: rest, k, q =>
    if k' = k then (k, q) :: setQueue rest k q else (k', q') :: setQueue rest k q

/-- Sender resolution of `ServeHTTP`: exact lookup of the sender, then
the wildcard `defaultKey`, else nothing. -/
def resolveQueue (m : List (String × List String)) (sender : String) :
    Option (String × List String) :=
  match lookupKey m sender with
  | some q => some (sender, q)
  | none =>
    match lookupKey m defaultKey with
    | some q => some (defaultKey, q)
    | none => none

/-- Go `r.BasicAuth()` outcome check: the request carries credentials and
they match the configured pair.  `auth = none` models `!ok`. -/
def authOk (h : handler) (auth : Option (String × String)) : Bool :=
  match auth with
  | none => false
  | some (u, p) => u == h.user && p == h.pass

/-- One non-blocking send loop over a recipient list: for each record, if
the queue has room the address is appended (the `ch <- r.Email` case),
otherwise it is dropped (the `default` case).  Returns the final queue
and, per record, whether its send succeeded. -/
def runQueue (f : α → String) (q : List String) (rs : List α) :
    List String × List (α × Bool) :=
  match rs with
  | [] => (q, [])
  | r :: rest =>
    if q.length < queueCap then
      let out := runQueue f (q ++ [f r]) rest
      (out.1, (r, true) :: out.2)
    else
      let out := runQueue f q rest
      (out.1, (r, false) :: out.2)

/-- Addresses of the records whose send succeeded, in order. -/
def accEmails (f : α → String) (outs : List (α × Bool)) : List String :=
  (outs.filter fun o => o.2).map fun o => f o.1

/-- Addresses of the records whose send overflowed, in order. -/
def rejEmails (f : α → String) (outs : List (α × Bool)) : List String :=
  (outs.filter fun o => !o.2).map fun o => f o.1

/-- Log lines of one bounce-loop iteration: the attempt line always, the
overflow line when the send hit a full queue. -/
def bounceLog (sender : String) : bouncedRecipient × Bool → List LogEvent
  | (r, true) => [LogEvent.bounceAttempt sender r.email r.diagnostic]
  | (r, false) =>
    [LogEvent.bounceAttempt sender r.email r.diagnostic, LogEvent.overflow sender r.email]

/-- Log lines of one complaint-loop iteration. -/
def complaintLog (sender : String) : complainedRecipient × Bool → List LogEvent
  | (r, true) => [LogEvent.complaintAttempt sender r.email r.feedback]
  | (r, false) =>
    [LogEvent.complaintAttempt sender r.email r.feedback, LogEvent.overflow sender r.email]

/-- Recipients the bounce loop iterates over: the guard
`msg.Bounce != nil && msg.Bounce.Type == "Permanent"` selects the bounce
recipients, otherwise the loop body never runs. -/
def bounceToDispatch (msg : payload) : List bouncedRecipient :=
  match msg.bounce with
  | some b => if b.type = "Permanent" then b.recipients else []
  | none => []

/-- Recipients the complaint loop iterates over: the guard
`msg.Complaint != nil` selects the complaint recipients. -/
def complaintToDispatch (msg : payload) : List complainedRecipient :=
  match msg.complaint with
  | some c => c.recipients
  | none => []

/-- A result skeleton with no effects and the registry unchanged. -/
def baseResult (h : handler) : HttpResult :=
  { status := 0
    authChallenge := false
    confirms := []
    logs := []
    resolvedKey := none
    bounceEnqueued := []
    bounceOverflow := []
    complaintEnqueued := []
    complaintOverflow := []
    registry := h.m }

/-- Substring containment on character lists, the model of Go
`strings.Contains`. -/
def leadsWith : List Char → List Char → Bool
  | [], _ => true
  | _ :: _, [] => false
  | a :: as, b :: bs => a == b && leadsWith as bs

/-- Whether `needle` occurs inside `hay`. -/
def isInfixList (needle : List Char) : List Char → Bool
  | [] => needle.isEmpty
  | c :: t => leadsWith needle (c :: t) || isInfixList needle t

/-- Go `strings.Contains s sub`. -/
def strContains (s sub : String) : Bool :=
  isInfixList sub.toList s.toList

/-- The tail of the Notification branch of `ServeHTTP` (lines 205-237):
sender resolution, the bounce loop, the complaint loop, and the final
`204`. -/
def handleActionable (h : handler) (msg : payload) : HttpResult :=
  match resolveQueue h.m msg.mail.source with
  | none =>
    { baseResult h with
        status := 204
        logs := [LogEvent.unconfiguredSender msg.mail.source] }
  | some (k, q) =>
    let sender := msg.mail.source
    let br := runQueue (fun r => r.email) q (bounceToDispatch msg)
    let cr := runQueue (fun r => r.email) br.1 (complaintToDispatch msg)
    { status := 204
      authChallenge := false
      confirms := []
      logs := (br.2.flatMap (bounceLog sender)) ++ (cr.2.flatMap (complaintLog sender))
      resolvedKey := some k
      bounceEnqueued := accEmails (fun r => r.email) br.2
      bounceOverflow := rejEmails (fun r => r.email) br.2
      complaintEnqueued := accEmails (fun r => r.email) cr.2
      complaintOverflow := rejEmails (fun r => r.email) cr.2
      registry := setQueue h.m k cr.1 }

/-- The `ServeHTTP` method.  `auth` is the outcome of `r.BasicAuth()`
(`none` when the header is absent or malformed), `body` the outcome of
decoding the capped request body as the outer envelope, `inner` the
outcome of `json.Unmarshal` applied to the envelope's `Message` string. -/
def ServeHTTP (h : handler) (auth : Option (String × String)) (body : Option snsMsg)
    (inner : Option payload) : HttpResult :=
  if h.user ≠ "" ∧ h.pass ≠ "" ∧ authOk h auth = false then
    { baseResult h with status := 401, authChallenge := true }
  else
    match body with
    | none => { baseResult h with status := 400, logs := [LogEvent.decodeError] }
    | some sns =>
      if sns.type = "SubscriptionConfirmation" then
        if strContains sns.url "amazonaws.com" then
          { baseResult h with
              status := 204
              confirms := [sns.url]
              logs := [LogEvent.confirmFollow sns.url] }
        else
          { baseResult h with status := 204 }
      else if sns.type = "Notification" then
        match inner with
        | none => { baseResult h with status := 400, logs := [LogEvent.innerDecodeError] }
        | some msg =>
          if msg.type = "Bounce" ∨ msg.type = "Complaint" then
            handleActionable h msg
          else
            { baseResult h with
                status := 204
                logs := [LogEvent.unsupportedMsgType msg.type] }
      else
        { baseResult h with status := 400, logs := [LogEvent.unsupportedSnsType sns.type] }

/-- The `Register` method: panics (`none`) when the sender is already
registered; otherwise inserts a fresh empty queue of capacity `queueCap`
and starts one worker goroutine bound to that key.  `workers` records the
keys of started workers. -/
def Register (h : handler) (workers : List String) (srcEmail : String) :
    Option (handler × List String) :=
  if (lookupKey h.m srcEmail).isSome then none
  else some ({ h with m := h.m ++ [(srcEmail, [])] }, workers ++ [srcEmail])

/-- Modelled from the spec: the characters of a URL after the scheme
separator.  The source performs no URL parsing (it only runs
`strings.Contains` on the whole URL string); this definition exists to
state the spec's phrase about the confirmation URL's host. -/
def afterScheme : List Char → List Char
  | [] => []
  | ':' :: '/' :: '/' :: rest => rest
  | _ :: t => afterScheme t

/-- Modelled from the spec: the host component of a URL — the text after
the scheme separator, up to the first slash, with any port stripped. -/
def specUrlHost (url : String) : String :=
  String.mk (((afterScheme url.toList).takeWhile fun c => c != '/').takeWhile fun c => c != ':')

/-- Modelled from the spec: the confirmation URL's host matches the
expected cloud-notification domain, i.e. the host is `amazonaws.com` or a
subdomain of it. -/
def specHostMatchesTrustedDomain (url : String) : Bool :=
  specUrlHost url == "amazonaws.com" ||
    leadsWith (String.toList ".amazonaws.com").reverse (specUrlHost url).toList.reverse

/-! ### Helper lemmas about the queue loop and registry lookup -/

theorem runQueue_all (f : α → String) (rs : List α) :
    ∀ q : List String, q.length + rs.length ≤ queueCap →
      runQueue f q rs = (q ++ rs.map f, rs.map fun r => (r, true)) := by
  induction rs with
  | nil => intro q _; simp [runQueue]
  | cons r rest ih =>
    intro q hcap
    rw [List.length_cons] at hcap
    have hlt : q.length < queueCap := by omega
    have hrec := ih (q ++ [f r]) (by rw [List.length_append]; simp; omega)
    simp only [runQueue, if_pos hlt, hrec, List.map_cons]
    simp

theorem runQueue_full (f : α → String) (rs : List α) (q : List String)
    (hfull : queueCap ≤ q.length) :
    runQueue f q rs = (q, rs.map fun r => (r, false)) := by
  induction rs with
  | nil => simp [runQueue]
  | cons r rest ih =>
    simp only [runQueue, if_neg (by omega : ¬ q.length < queueCap), ih, List.map_cons]

theorem accEmails_true (f : α → String) (rs : List α) :
    accEmails f (rs.map fun r => (r, true)) = rs.map f := by
  induction rs with
  | nil => rfl
  | cons r rest ih => simpa [accEmails] using ih

theorem rejEmails_true (f : α → String) (rs : List α) :
    rejEmails f (rs.map fun r => (r, true)) = [] := by
  induction rs with
  | nil => rfl
  | cons r rest ih => simp [rejEmails]

theorem accEmails_false (f : α → String) (rs : List α) :
    accEmails f (rs.map fun r => (r, false)) = [] := by
  induction rs with
  | nil => rfl
  | cons r rest ih => simp [accEmails]

theorem rejEmails_false (f : α → String) (rs : List α) :
    rejEmails f (rs.map fun r => (r, false)) = rs.map f := by
  induction rs with
  | nil => rfl
  | cons r rest ih => simpa [rejEmails] using ih

theorem acc_rej_length (f : α → String) (outs : List (α × Bool)) :
    (accEmails f outs).length + (rejEmails f outs).length = outs.length := by
  induction outs with
  | nil => rfl
  | cons o rest ih =>
    rcases o with ⟨r, b⟩
    cases b <;> simp [accEmails, rejEmails] at ih ⊢ <;> omega

theorem runQueue_snd_length (f : α → String) (rs : List α) :
    ∀ q : List String, ((runQueue f q rs).2).length = rs.length := by
  induction rs with
  | nil => intro q; rfl
  | cons r rest ih =>
    intro q
    by_cases hlt : q.length < queueCap <;> simp [runQueue, hlt, ih]

theorem runQueue_fst (f : α → String) (rs : List α) :
    ∀ q : List String, (runQueue f q rs).1 = q ++ accEmails f (runQueue f q rs).2 := by
  induction rs with
  | nil => intro q; simp [runQueue, accEmails]
  | cons r rest ih =>
    intro q
    by_cases hlt : q.length < queueCap
    · simp only [runQueue, if_pos hlt]
      rw [ih (q ++ [f r])]
      simp [accEmails]
    · simp only [runQueue, if_neg hlt]
      rw [ih q]
      simp [accEmails]

theorem mem_rej_bounceLog (sender : String) (outs : List (bouncedRecipient × Bool))
    (e : String) (he : e ∈ rejEmails (fun r => r.email) outs) :
    LogEvent.overflow sender e ∈ outs.flatMap (bounceLog sender) := by
  induction outs with
  | nil => simp [rejEmails] at he
  | cons o rest ih =>
    rcases o with ⟨r, b⟩
    cases b
    · simp only [rejEmails, List.filter_cons] at he
      simp only [Bool.not_false, if_pos] at he
      rw [List.map_cons] at he
      rcases List.mem_cons.mp he with he | he
      · subst he
        simp [bounceLog]
      · simp only [List.flatMap_cons, List.mem_append]
        exact Or.inr (ih (by simpa [rejEmails] using he))
    · simp only [rejEmails, List.filter_cons, Bool.not_true] at he
      simp only [List.flatMap_cons, List.mem_append]
      exact Or.inr (ih (by simpa [rejEmails] using he))

theorem mem_rej_complaintLog (sender : String) (outs : List (complainedRecipient × Bool))
    (e : String) (he : e ∈ rejEmails (fun r => r.email) outs) :
    LogEvent.overflow sender e ∈ outs.flatMap (complaintLog sender) := by
  induction outs with
  | nil => simp [rejEmails] at he
  | cons o rest ih =>
    rcases o with ⟨r, b⟩
    cases b
    · simp only [rejEmails, List.filter_cons] at he
      simp only [Bool.not_false, if_pos] at he
      rw [List.map_cons] at he
      rcases List.mem_cons.mp he with he | he
      · subst he
        simp [complaintLog]
      · simp only [List.flatMap_cons, List.mem_append]
        exact Or.inr (ih (by simpa [rejEmails] using he))
    · simp only [rejEmails, List.filter_cons, Bool.not_true] at he
      simp only [List.flatMap_cons, List.mem_append]
      exact Or.inr (ih (by simpa [rejEmails] using he))

theorem lookupKey_setQueue_self (m : List (String × List String)) (k : String)
    (v : List String) (hk : (lookupKey m k).isSome) :
    lookupKey (setQueue m k v) k = some v := by
  induction m with
  | nil => simp [lookupKey] at hk
  | cons kv rest ih =>
    rcases kv with ⟨k', q⟩
    by_cases hkk : k' = k
    · subst hkk
      simp [lookupKey, setQueue]
    · simp only [lookupKey, if_neg hkk] at hk
      simp [setQueue, lookupKey, hkk, ih hk]

theorem resolveQueue_lookup (m : List (String × List String)) (s k : String)
    (q : List String) (hres : resolveQueue m s = some (k, q)) :
    lookupKey m k = some q := by
  unfold resolveQueue at hres
  cases hs : lookupKey m s with
  | some q' =>
    rw [hs] at hres
    simp only [Option.some.injEq, Prod.mk.injEq] at hres
    rw [← hres.1, hs, hres.2]
  | none =>
    rw [hs] at hres
    cases hd : lookupKey m defaultKey with
    | some q' =>
      rw [hd] at hres
      simp only [Option.some.injEq, Prod.mk.injEq] at hres
      rw [← hres.1, hd, hres.2]
    | none => rw [hd] at hres; exact absurd hres (by simp)

theorem lookupKey_append_single (m : List (String × List String)) (s k : String)
    (v : List String) :
    lookupKey (m ++ [(s, v)]) k =
      match lookupKey m k with
      | some q => some q
      | none => if s = k then some v else none := by
  induction m with
  | nil => simp [lookupKey]
  | cons kv rest ih =>
    rcases kv with ⟨k', q⟩
    by_cases hkk : k' = k <;> simp [lookupKey, hkk, ih]

/-! ### Path-reduction lemmas for `ServeHTTP` -/

theorem ServeHTTP_notification (h : handler) (auth : Option (String × String))
    (sns : snsMsg) (inner : Option payload)
    (hauth : ¬ (h.user ≠ "" ∧ h.pass ≠ "" ∧ authOk h auth = false))
    (hsns : sns.type = "Notification") :
    ServeHTTP h auth (some sns) inner =
      match inner with
      | none => { baseResult h with status := 400, logs := [LogEvent.innerDecodeError] }
      | some msg =>
        if msg.type = "Bounce" ∨ msg.type = "Complaint" then
          handleActionable h msg
        else
          { baseResult h with
              status := 204
              logs := [LogEvent.unsupportedMsgType msg.type] } := by
  simp only [ServeHTTP, if_neg hauth]
  rw [hsns]
  simp

theorem ServeHTTP_actionable (h : handler) (auth : Option (String × String))
    (sns : snsMsg) (msg : payload)
    (hauth : ¬ (h.user ≠ "" ∧ h.pass ≠ "" ∧ authOk h auth = false))
    (hsns : sns.type = "Notification")
    (htype : msg.type = "Bounce" ∨ msg.type = "Complaint") :
    ServeHTTP h auth (some sns) (some msg) = handleActionable h msg := by
  rw [ServeHTTP_notification h auth sns (some msg) hauth hsns]
  simp [htype]

theorem handleActionable_status (h : handler) (msg : payload) :
    (handleActionable h msg).status = 204 := by
  unfold handleActionable
  cases hres : resolveQueue h.m msg.mail.source with
  | none => rfl
  | some kq => rcases kq with ⟨k, q⟩; rfl

theorem handleActionable_resolved (h : handler) (msg : payload) (k : String)
    (q : List String) (hres : resolveQueue h.m msg.mail.source = some (k, q)) :
    handleActionable h msg =
      { status := 204
        authChallenge := false
        confirms := []
        logs := ((runQueue (fun r => r.email) q (bounceToDispatch msg)).2.flatMap
                   (bounceLog msg.mail.source)) ++
                ((runQueue (fun r => r.email)
                    (runQueue (fun r => r.email) q (bounceToDispatch msg)).1
                    (complaintToDispatch msg)).2.flatMap (complaintLog msg.mail.source))
        resolvedKey := some k
        bounceEnqueued := accEmails (fun r => r.email)
            (runQueue (fun r => r.email) q (bounceToDispatch msg)).2
        bounceOverflow := rejEmails (fun r => r.email)
            (runQueue (fun r => r.email) q (bounceToDispatch msg)).2
        complaintEnqueued := accEmails (fun r => r.email)
            (runQueue (fun r => r.email)
               (runQueue (fun r => r.email) q (bounceToDispatch msg)).1
               (complaintToDispatch msg)).2
        complaintOverflow := rejEmails (fun r => r.email)
            (runQueue (fun r => r.email)
               (runQueue (fun r => r.email) q (bounceToDispatch msg)).1
               (complaintToDispatch msg)).2
        registry := setQueue h.m k
            (runQueue (fun r => r.email)
               (runQueue (fun r => r.email) q (bounceToDispatch msg)).1
               (complaintToDispatch msg)).1 } := by
  unfold handleActionable
  rw [hres]

theorem authGate_skip (h : handler) (auth : Option (String × String))
    (hcred : h.user = "" ∨ h.pass = "") :
    ¬ (h.user ≠ "" ∧ h.pass ≠ "" ∧ authOk h auth = false) := by
  rintro ⟨h1, h2, _⟩
  rcases hcred with hc | hc
  · exact h1 hc
  · exact h2 hc

/-! ### Claim theorems -/

/-- C1: for a decoded Notification payload of type Bounce whose bounce
classification is "Permanent" and whose recipient list has N entries,
if a queue is resolved with remaining capacity at least N, each of the N
recipient addresses is enqueued onto the resolved queue in the original
list order; for any bounce classification other than "Permanent", zero
bounce-recipient enqueues (and no overflow drops) occur. -/
theorem bounce_permanent_dispatch (h : handler) (auth : Option (String × String))
    (sns : snsMsg) (msg : payload) (b : bounceInfo) (k : String) (q : List String)
    (hauth : ¬ (h.user ≠ "" ∧ h.pass ≠ "" ∧ authOk h auth = false))
    (hsns : sns.type = "Notification")
    (hmsg : msg.type = "Bounce")
    (hb : msg.bounce = some b)
    (hres : resolveQueue h.m msg.mail.source = some (k, q)) :
    (b.type = "Permanent" → q.length + b.recipients.length ≤ queueCap →
      (ServeHTTP h auth (some sns) (some msg)).bounceEnqueued
          = b.recipients.map (fun r => r.email) ∧
      ∃ rest, lookupKey (ServeHTTP h auth (some sns) (some msg)).registry k
          = some (q ++ b.recipients.map (fun r => r.email) ++ rest)) ∧
    (b.type ≠ "Permanent" →
      (ServeHTTP h auth (some sns) (some msg)).bounceEnqueued = [] ∧
      (ServeHTTP h auth (some sns) (some msg)).bounceOverflow = []) := by
  rw [ServeHTTP_actionable h auth sns msg hauth hsns (Or.inl hmsg),
      handleActionable_resolved h msg k q hres]
  have hsome : (lookupKey h.m k).isSome := by
    rw [resolveQueue_lookup h.m msg.mail.source k q hres]; rfl
  constructor
  · intro hperm hcap
    have hbd : bounceToDispatch msg = b.recipients := by
      simp [bounceToDispatch, hb, hperm]
    simp only [hbd, runQueue_all (fun r => r.email) b.recipients q hcap]
    refine ⟨by simp [accEmails_true], ?_⟩
    refine ⟨accEmails (fun r => r.email)
      (runQueue (fun r => r.email) (q ++ b.recipients.map fun r => r.email)
        (complaintToDispatch msg)).2, ?_⟩
    rw [lookupKey_setQueue_self _ _ _ hsome, runQueue_fst]
  · intro hnp
    have hbd : bounceToDispatch msg = [] := by
      simp [bounceToDispatch, hb, hnp]
    simp [hbd, runQueue, accEmails, rejEmails]

def wHandler : handler := { user := "", pass := "", m := [("s@x", [])] }

def wSns : snsMsg := { type := "Notification", url := "", message := "" }

def wBounce : bounceInfo :=
  { type := "Permanent",
    recipients := [{ email := "r1@x", diagnostic := "d1" },
                   { email := "r2@x", diagnostic := "d2" }] }

def wMsgBounce : payload :=
  { type := "Bounce", mail := { source := "s@x" }, bounce := some wBounce, complaint := none }

/-- C1 witness: a Permanent bounce with two recipients enqueues both, in
order, onto the queue registered for the sender. -/
theorem bounce_permanent_dispatch_witness :
    (ServeHTTP wHandler none (some wSns) (some wMsgBounce)).bounceEnqueued
        = ["r1@x", "r2@x"] := by
  have h := bounce_permanent_dispatch wHandler none wSns wMsgBounce wBounce "s@x" []
    (by decide) rfl rfl rfl (by decide)
  simpa using (h.1 rfl (by decide)).1

/-- C2: for a decoded Complaint payload with N listed complained
recipients, if a queue is resolved with sufficient capacity, all N
recipient addresses are enqueued onto the resolved queue, regardless of
any bounce-classification value carried alongside. -/
theorem complaint_dispatch (h : handler) (auth : Option (String × String))
    (sns : snsMsg) (msg : payload) (c : complaintInfo) (k : String) (q : List String)
    (hauth : ¬ (h.user ≠ "" ∧ h.pass ≠ "" ∧ authOk h auth = false))
    (hsns : sns.type = "Notification")
    (hmsg : msg.type = "Complaint")
    (hc : msg.complaint = some c)
    (hres : resolveQueue h.m msg.mail.source = some (k, q))
    (hcap : q.length + (bounceToDispatch msg).length + c.recipients.length ≤ queueCap) :
    (ServeHTTP h auth (some sns) (some msg)).complaintEnqueued
        = c.recipients.map (fun r => r.email) ∧
    ∃ pre, lookupKey (ServeHTTP h auth (some sns) (some msg)).registry k
        = some (q ++ pre ++ c.recipients.map (fun r => r.email)) := by
  rw [ServeHTTP_actionable h auth sns msg hauth hsns (Or.inr hmsg),
      handleActionable_resolved h msg k q hres]
  have hsome : (lookupKey h.m k).isSome := by
    rw [resolveQueue_lookup h.m msg.mail.source k q hres]; rfl
  have hcd : complaintToDispatch msg = c.recipients := by
    simp [complaintToDispatch, hc]
  have hb1 : runQueue (fun r => r.email) q (bounceToDispatch msg)
      = (q ++ (bounceToDispatch msg).map (fun r => r.email),
         (bounceToDispatch msg).map fun r => (r, true)) :=
    runQueue_all _ _ q (by omega)
  have hlen : (q ++ (bounceToDispatch msg).map (fun r => r.email)).length
      + c.recipients.length ≤ queueCap := by
    rw [List.length_append, List.length_map]; omega
  have hc1 : runQueue (fun r => r.email)
      (q ++ (bounceToDispatch msg).map (fun r => r.email)) c.recipients
      = ((q ++ (bounceToDispatch msg).map (fun r => r.email))
           ++ c.recipients.map (fun r => r.email),
         c.recipients.map fun r => (r, true)) :=
    runQueue_all _ _ _ hlen
  simp only [hcd, hb1, hc1]
  refine ⟨by simp [accEmails_true], ?_⟩
  refine ⟨(bounceToDispatch msg).map (fun r => r.email), ?_⟩
  rw [lookupKey_setQueue_self _ _ _ hsome]

def wComplaint : complaintInfo :=
  { recipients := [{ email := "c1@x", feedback := "abuse" },
                   { email := "c2@x", feedback := "abuse" }] }

def wMsgComplaint : payload :=
  { type := "Complaint", mail := { source := "s@x" }, bounce := none,
    complaint := some wComplaint }

/-- C2 witness: a Complaint payload with two recipients enqueues both
onto the sender's queue. -/
theorem complaint_dispatch_witness :
    (ServeHTTP wHandler none (some wSns) (some wMsgComplaint)).complaintEnqueued
        = ["c1@x", "c2@x"] := by
  have h := complaint_dispatch wHandler none wSns wMsgComplaint wComplaint "s@x" []
    (by decide) rfl rfl rfl (by decide) (by decide)
  simpa using h.1

/-- C3: for an actionable payload the queue is resolved by exact lookup
of the originating sender address, falling back to the wildcard entry
keyed `defaultKey`, and when neither exists the event is logged, the
response is 204 and zero enqueues occur. -/
theorem sender_resolution (h : handler) (auth : Option (String × String))
    (sns : snsMsg) (msg : payload)
    (hauth : ¬ (h.user ≠ "" ∧ h.pass ≠ "" ∧ authOk h auth = false))
    (hsns : sns.type = "Notification")
    (htype : msg.type = "Bounce" ∨ msg.type = "Complaint") :
    (∀ q, lookupKey h.m msg.mail.source = some q →
        (ServeHTTP h auth (some sns) (some msg)).resolvedKey = some msg.mail.source) ∧
    (lookupKey h.m msg.mail.source = none →
      ∀ q, lookupKey h.m defaultKey = some q →
        (ServeHTTP h auth (some sns) (some msg)).resolvedKey = some defaultKey) ∧
    (lookupKey h.m msg.mail.source = none → lookupKey h.m defaultKey = none →
      (ServeHTTP h auth (some sns) (some msg)).status = 204 ∧
      LogEvent.unconfiguredSender msg.mail.source
          ∈ (ServeHTTP h auth (some sns) (some msg)).logs ∧
      (ServeHTTP h auth (some sns) (some msg)).bounceEnqueued = [] ∧
      (ServeHTTP h auth (some sns) (some msg)).bounceOverflow = [] ∧
      (ServeHTTP h auth (some sns) (some msg)).complaintEnqueued = [] ∧
      (ServeHTTP h auth (some sns) (some msg)).complaintOverflow = [] ∧
      (ServeHTTP h auth (some sns) (some msg)).registry = h.m) := by
  rw [ServeHTTP_actionable h auth sns msg hauth hsns htype]
  refine ⟨?_, ?_, ?_⟩
  · intro q hq
    rw [handleActionable_resolved h msg msg.mail.source q (by simp [resolveQueue, hq])]
  · intro hnone q hq
    rw [handleActionable_resolved h msg defaultKey q
      (by simp [resolveQueue, hnone, hq])]
  · intro hnone hdef
    unfold handleActionable
    have hres : resolveQueue h.m msg.mail.source = none := by
      simp [resolveQueue, hnone, hdef]
    rw [hres]
    simp [baseResult]

/-- C3 witness: with only a wildcard entry registered, an unknown sender
resolves to the wildcard queue; with an empty registry, the request still
yields 204 with zero enqueues and the unconfigured-sender log line. -/
theorem sender_resolution_witness :
    (ServeHTTP { user := "", pass := "", m := [("*", [])] } none (some wSns)
        (some wMsgBounce)).resolvedKey = some "*" ∧
    (ServeHTTP { user := "", pass := "", m := [] } none (some wSns)
        (some wMsgBounce)).status = 204 ∧
    (ServeHTTP { user := "", pass := "", m := [] } none (some wSns)
        (some wMsgBounce)).bounceEnqueued = [] := by
  have h1 := sender_resolution { user := "", pass := "", m := [("*", [])] } none wSns
    wMsgBounce (by decide) rfl (Or.inl rfl)
  have h2 := sender_resolution { user := "", pass := "", m := [] } none wSns
    wMsgBounce (by decide) rfl (Or.inl rfl)
  refine ⟨h1.2.1 (by decide) [] (by decide), ?_, ?_⟩
  · exact (h2.2.2 (by decide) (by decide)).1
  · exact (h2.2.2 (by decide) (by decide)).2.2.1

/-- C4: an enqueue against a full queue raises no error to the HTTP
layer: the response is still 204, every recipient of the payload is
attempted, each dropped address produces an overflow log naming sender
and recipient, and when the resolved queue is already at capacity every
address is dropped and the queue is left unchanged. -/
theorem overflow_drop (h : handler) (auth : Option (String × String))
    (sns : snsMsg) (msg : payload) (k : String) (q : List String)
    (hauth : ¬ (h.user ≠ "" ∧ h.pass ≠ "" ∧ authOk h auth = false))
    (hsns : sns.type = "Notification")
    (htype : msg.type = "Bounce" ∨ msg.type = "Complaint")
    (hres : resolveQueue h.m msg.mail.source = some (k, q)) :
    (ServeHTTP h auth (some sns) (some msg)).status = 204 ∧
    (ServeHTTP h auth (some sns) (some msg)).bounceEnqueued.length
        + (ServeHTTP h auth (some sns) (some msg)).bounceOverflow.length
        = (bounceToDispatch msg).length ∧
    (ServeHTTP h auth (some sns) (some msg)).complaintEnqueued.length
        + (ServeHTTP h auth (some sns) (some msg)).complaintOverflow.length
        = (complaintToDispatch msg).length ∧
    (∀ e ∈ (ServeHTTP h auth (some sns) (some msg)).bounceOverflow,
        LogEvent.overflow msg.mail.source e
          ∈ (ServeHTTP h auth (some sns) (some msg)).logs) ∧
    (∀ e ∈ (ServeHTTP h auth (some sns) (some msg)).complaintOverflow,
        LogEvent.overflow msg.mail.source e
          ∈ (ServeHTTP h auth (some sns) (some msg)).logs) ∧
    (queueCap ≤ q.length →
        (ServeHTTP h auth (some sns) (some msg)).bounceEnqueued = [] ∧
        (ServeHTTP h auth (some sns) (some msg)).complaintEnqueued = [] ∧
        (ServeHTTP h auth (some sns) (some msg)).bounceOverflow
            = (bounceToDispatch msg).map (fun r => r.email) ∧
        (ServeHTTP h auth (some sns) (some msg)).complaintOverflow
            = (complaintToDispatch msg).map (fun r => r.email) ∧
        lookupKey (ServeHTTP h auth (some sns) (some msg)).registry k = some q) := by
  rw [ServeHTTP_actionable h auth sns msg hauth hsns htype,
      handleActionable_resolved h msg k q hres]
  have hsome : (lookupKey h.m k).isSome := by
    rw [resolveQueue_lookup h.m msg.mail.source k q hres]; rfl
  refine ⟨rfl, ?_, ?_, ?_, ?_, ?_⟩
  · rw [acc_rej_length, runQueue_snd_length]
  · rw [acc_rej_length, runQueue_snd_length]
  · intro e he
    exact List.mem_append.mpr (Or.inl (mem_rej_bounceLog _ _ _ he))
  · intro e he
    exact List.mem_append.mpr (Or.inr (mem_rej_complaintLog _ _ _ he))
  · intro hfull
    have hb1 : runQueue (fun r => r.email) q (bounceToDispatch msg)
        = (q, (bounceToDispatch msg).map fun r => (r, false)) :=
      runQueue_full _ _ _ hfull
    have hc1 : runQueue (fun r => r.email) q (complaintToDispatch msg)
        = (q, (complaintToDispatch msg).map fun r => (r, false)) :=
      runQueue_full _ _ _ hfull
    simp only [hb1, hc1]
    refine ⟨by simp [accEmails_false], by simp [accEmails_false],
      by simp [rejEmails_false], by simp [rejEmails_false], ?_⟩
    rw [lookupKey_setQueue_self _ _ _ hsome]

def wFullQueue : List String := List.replicate 100 "old@x"

/-- C4 witness: with the sender's queue already holding 100 addresses,
the bounce recipients are all dropped, each drop is logged, and the
response is 204. -/
theorem overflow_drop_witness :
    (ServeHTTP { user := "", pass := "", m := [("s@x", wFullQueue)] } none
        (some wSns) (some wMsgBounce)).status = 204 ∧
    (ServeHTTP { user := "", pass := "", m := [("s@x", wFullQueue)] } none
        (some wSns) (some wMsgBounce)).bounceOverflow = ["r1@x", "r2@x"] := by
  have h := overflow_drop { user := "", pass := "", m := [("s@x", wFullQueue)] } none
    wSns wMsgBounce "s@x" wFullQueue (by decide) rfl (Or.inl rfl) (by decide)
  refine ⟨h.1, ?_⟩
  have h2 := (h.2.2.2.2.2 (by decide)).2.2.1
  simpa using h2

/-- C5 (amended): for a SubscriptionConfirmation envelope the handler
responds 204 and performs no further processing, and it issues exactly
one outbound confirmation GET to the SubscribeURL if and only if the URL
string contains the substring "amazonaws.com" anywhere in it — the
source tests `strings.Contains` on the whole URL, not the URL's host. -/
theorem subscription_confirmation_terminal (h : handler) (auth : Option (String × String))
    (sns : snsMsg) (inner : Option payload)
    (hauth : ¬ (h.user ≠ "" ∧ h.pass ≠ "" ∧ authOk h auth = false))
    (hsns : sns.type = "SubscriptionConfirmation") :
    (ServeHTTP h auth (some sns) inner).status = 204 ∧
    (ServeHTTP h auth (some sns) inner).confirms
        = (if strContains sns.url "amazonaws.com" then [sns.url] else []) ∧
    (ServeHTTP h auth (some sns) inner).bounceEnqueued = [] ∧
    (ServeHTTP h auth (some sns) inner).bounceOverflow = [] ∧
    (ServeHTTP h auth (some sns) inner).complaintEnqueued = [] ∧
    (ServeHTTP h auth (some sns) inner).complaintOverflow = [] ∧
    (ServeHTTP h auth (some sns) inner).registry = h.m ∧
    (ServeHTTP h auth (some sns) inner).resolvedKey = none := by
  simp only [ServeHTTP, if_neg hauth]
  rw [hsns]
  by_cases hc : strContains sns.url "amazonaws.com" <;> simp [hc, baseResult]

def cexSns : snsMsg :=
  { type := "SubscriptionConfirmation", url := "http://evil.example/amazonaws.com",
    message := "" }

/-- C5 counterexample: the code follows any SubscribeURL that contains
"amazonaws.com" anywhere in the URL string; here one outbound GET is
issued although the URL's host is `evil.example`, which does not match
the cloud-notification domain — refuting the claim's "if and only if the
confirmation URL's host matches" condition. -/
theorem subscription_confirmation_host_cex :
    (ServeHTTP { user := "", pass := "", m := [] } none (some cexSns) none).confirms
        = ["http://evil.example/amazonaws.com"] ∧
    specUrlHost "http://evil.example/amazonaws.com" = "evil.example" ∧
    specHostMatchesTrustedDomain "http://evil.example/amazonaws.com" = false := by
  refine ⟨?_, ?_, ?_⟩ <;> decide

/-- C5 witness: a confirmation envelope whose URL does not contain the
trusted substring produces zero outbound calls, still 204. -/
theorem subscription_confirmation_terminal_witness :
    (ServeHTTP { user := "", pass := "", m := [] } none
        (some { type := "SubscriptionConfirmation", url := "http://x.example/",
                message := "" }) none).status = 204 ∧
    (ServeHTTP { user := "", pass := "", m := [] } none
        (some { type := "SubscriptionConfirmation", url := "http://x.example/",
                message := "" }) none).confirms = [] := by
  have h := subscription_confirmation_terminal { user := "", pass := "", m := [] } none
    { type := "SubscriptionConfirmation", url := "http://x.example/", message := "" }
    none (by decide) rfl
  refine ⟨h.1, ?_⟩
  rw [h.2.1]
  decide

/-- C6: a successfully decoded inner payload whose event type is neither
"Bounce" nor "Complaint" (e.g. "Delivery") yields 204 and zero enqueues. -/
theorem nonactionable_type_ignored (h : handler) (auth : Option (String × String))
    (sns : snsMsg) (msg : payload)
    (hauth : ¬ (h.user ≠ "" ∧ h.pass ≠ "" ∧ authOk h auth = false))
    (hsns : sns.type = "Notification")
    (hb : msg.type ≠ "Bounce") (hc : msg.type ≠ "Complaint") :
    (ServeHTTP h auth (some sns) (some msg)).status = 204 ∧
    (ServeHTTP h auth (some sns) (some msg)).bounceEnqueued = [] ∧
    (ServeHTTP h auth (some sns) (some msg)).bounceOverflow = [] ∧
    (ServeHTTP h auth (some sns) (some msg)).complaintEnqueued = [] ∧
    (ServeHTTP h auth (some sns) (some msg)).complaintOverflow = [] ∧
    (ServeHTTP h auth (some sns) (some msg)).registry = h.m := by
  rw [ServeHTTP_notification h auth sns (some msg) hauth hsns]
  have hno : ¬ (msg.type = "Bounce" ∨ msg.type = "Complaint") := by tauto
  simp [hno, baseResult]

/-- C6 witness: a Delivery payload is accepted with 204 and enqueues
nothing even though a queue for its sender exists. -/
theorem nonactionable_type_ignored_witness :
    (ServeHTTP wHandler none (some wSns)
        (some { wMsgBounce with type := "Delivery" })).status = 204 ∧
    (ServeHTTP wHandler none (some wSns)
        (some { wMsgBounce with type := "Delivery" })).bounceEnqueued = [] := by
  have h := nonactionable_type_ignored wHandler none wSns
    { wMsgBounce with type := "Delivery" } (by decide) rfl (by decide) (by decide)
  exact ⟨h.1, h.2.1⟩

/-- C7: once authentication passes (or is skipped), the handler responds
400 exactly when the outer envelope fails to decode, or its type is
neither SubscriptionConfirmation nor Notification, or it is a
Notification whose embedded Message fails to decode as the inner
payload; every 400 terminates with zero enqueues and the registry
untouched. -/
theorem bad_request_iff (h : handler) (auth : Option (String × String))
    (body : Option snsMsg) (inner : Option payload)
    (hauth : ¬ (h.user ≠ "" ∧ h.pass ≠ "" ∧ authOk h auth = false)) :
    ((ServeHTTP h auth body inner).status = 400 ↔
      (body = none ∨
       (∃ sns, body = some sns ∧ sns.type ≠ "SubscriptionConfirmation" ∧
          sns.type ≠ "Notification") ∨
       (∃ sns, body = some sns ∧ sns.type = "Notification" ∧ inner = none))) ∧
    ((ServeHTTP h auth body inner).status = 400 →
      (ServeHTTP h auth body inner).bounceEnqueued = [] ∧
      (ServeHTTP h auth body inner).bounceOverflow = [] ∧
      (ServeHTTP h auth body inner).complaintEnqueued = [] ∧
      (ServeHTTP h auth body inner).complaintOverflow = [] ∧
      (ServeHTTP h auth body inner).registry = h.m) := by
  cases body with
  | none =>
    simp only [ServeHTTP, if_neg hauth]
    simp [baseResult]
  | some sns =>
    by_cases h1 : sns.type = "SubscriptionConfirmation"
    · simp only [ServeHTTP, if_neg hauth]
      rw [h1]
      by_cases hc : strContains sns.url "amazonaws.com" <;>
        simp [hc, baseResult, h1]
    · by_cases h2 : sns.type = "Notification"
      · cases inner with
        | none =>
          rw [ServeHTTP_notification h auth sns none hauth h2]
          simp [h1, h2, baseResult]
        | some msg =>
          rw [ServeHTTP_notification h auth sns (some msg) hauth h2]
          by_cases h3 : msg.type = "Bounce" ∨ msg.type = "Complaint"
          · simp [h3, handleActionable_status, h1, h2, baseResult]
          · simp [h3, h1, h2, baseResult]
      · simp only [ServeHTTP, if_neg hauth]
        simp [h1, h2, baseResult]

/-- C7 witness: an undecodable body yields 400, and a Notification
envelope with an undecodable Message yields 400; no enqueues occur. -/
theorem bad_request_iff_witness :
    (ServeHTTP { user := "", pass := "", m := [] } none none none).status = 400 ∧
    (ServeHTTP { user := "", pass := "", m := [] } none (some wSns) none).status = 400 ∧
    (ServeHTTP { user := "", pass := "", m := [] } none (some wSns) none).bounceEnqueued
        = [] := by
  have h1 := bad_request_iff { user := "", pass := "", m := [] } none none none (by decide)
  have h2 := bad_request_iff { user := "", pass := "", m := [] } none (some wSns) none
    (by decide)
  have hs2 : (ServeHTTP { user := "", pass := "", m := [] } none (some wSns) none).status
      = 400 := h2.1.mpr (Or.inr (Or.inr ⟨wSns, rfl, rfl, rfl⟩))
  exact ⟨h1.1.mpr (Or.inl rfl), hs2, (h2.2 hs2).1⟩

/-- C8: when both configured credentials are non-empty, a request with
missing or mismatched Basic credentials gets 401 together with the
WWW-Authenticate challenge and no further processing; when either
credential is empty the check is skipped entirely — the response does
not depend on the request's credentials at all. -/
theorem basic_auth_gate (h : handler) (auth : Option (String × String))
    (body : Option snsMsg) (inner : Option payload) :
    ((h.user ≠ "" ∧ h.pass ≠ "" ∧ authOk h auth = false) →
      (ServeHTTP h auth body inner).status = 401 ∧
      (ServeHTTP h auth body inner).authChallenge = true ∧
      (ServeHTTP h auth body inner).confirms = [] ∧
      (ServeHTTP h auth body inner).bounceEnqueued = [] ∧
      (ServeHTTP h auth body inner).complaintEnqueued = [] ∧
      (ServeHTTP h auth body inner).registry = h.m) ∧
    ((h.user = "" ∨ h.pass = "") →
      ∀ auth2, ServeHTTP h auth body inner = ServeHTTP h auth2 body inner) := by
  constructor
  · intro hfail
    simp [ServeHTTP, if_pos hfail, baseResult]
  · intro hcred auth2
    unfold ServeHTTP
    rw [if_neg (authGate_skip h auth hcred), if_neg (authGate_skip h auth2 hcred)]

/-- C8 witness: with both credentials configured, wrong credentials give
401 with the challenge header; with an empty user, the result is the
same with and without request credentials. -/
theorem basic_auth_gate_witness :
    (ServeHTTP { user := "u", pass := "p", m := [] } (some ("u", "wrong")) none
        none).status = 401 ∧
    (ServeHTTP { user := "u", pass := "p", m := [] } (some ("u", "wrong")) none
        none).authChallenge = true ∧
    ServeHTTP { user := "", pass := "p", m := [] } none (some wSns) none
      = ServeHTTP { user := "", pass := "p", m := [] } (some ("a", "b")) (some wSns)
          none := by
  have h1 := basic_auth_gate { user := "u", pass := "p", m := [] } (some ("u", "wrong"))
    none none
  have h2 := basic_auth_gate { user := "", pass := "p", m := [] } none (some wSns) none
  exact ⟨(h1.1 (by decide)).1, (h1.1 (by decide)).2.1, h2.2 (Or.inl rfl) (some ("a", "b"))⟩

/-- C9: registering a sender identity already present in the registry
fails fatally (the panic is modelled as `none`) and never silently
replaces the existing entry; registering a fresh identity leaves all
existing entries unchanged, allocates a bounded queue of the fixed
capacity 100, and starts exactly one worker bound to it. -/
theorem register_contract (h : handler) (workers : List String) (s : String) :
    ((lookupKey h.m s).isSome → Register h workers s = none) ∧
    (lookupKey h.m s = none →
      ∃ h2 w2, Register h workers s = some (h2, w2) ∧
        (∀ k, k ≠ s → lookupKey h2.m k = lookupKey h.m k) ∧
        lookupKey h2.m s = some [] ∧
        queueCap = 100 ∧
        w2 = workers ++ [s] ∧
        h2.user = h.user ∧ h2.pass = h.pass) := by
  constructor
  · intro hsome
    simp [Register, hsome]
  · intro hnone
    refine ⟨{ h with m := h.m ++ [(s, [])] }, workers ++ [s], ?_, ?_, ?_, rfl, rfl,
      rfl, rfl⟩
    · simp [Register, hnone]
    · intro k hk
      rw [lookupKey_append_single]
      cases hl : lookupKey h.m k with
      | some q => rfl
      | none => simp [Ne.symm hk]
    · rw [lookupKey_append_single, hnone]
      simp

/-- C9 witness: re-registering "a@x" panics; registering the fresh
"b@x" yields a state with an empty queue under "b@x" and exactly one new
worker. -/
theorem register_contract_witness :
    Register { user := "", pass := "", m := [("a@x", [])] } ["a@x"] "a@x" = none ∧
    (∃ h2 w2, Register { user := "", pass := "", m := [("a@x", [])] } ["a@x"] "b@x"
        = some (h2, w2) ∧ lookupKey h2.m "b@x" = some [] ∧
        lookupKey h2.m "a@x" = some [] ∧ w2 = ["a@x", "b@x"]) := by
  have h1 := register_contract { user := "", pass := "", m := [("a@x", [])] } ["a@x"]
    "a@x"
  have h2 := register_contract { user := "", pass := "", m := [("a@x", [])] } ["a@x"]
    "b@x"
  obtain ⟨hh, ww, heq, hpres, hfresh, hcap, hw, -, -⟩ := h2.2 (by decide)
  refine ⟨h1.1 (by decide), hh, ww, heq, hfresh, ?_, by simp [hw]⟩
  rw [hpres "a@x" (by decide)]
  decide

/-- C10: recipient dispatch is decided by the presence of the sub-objects,
not by the inner event type: for an actionable payload with a resolved
queue, a non-nil Permanent bounce object and a non-nil complaint object
both have their recipients enqueued, bounce loop first and complaint
loop second, and swapping the event type between "Bounce" and
"Complaint" leaves the entire result unchanged. -/
theorem dispatch_by_subobjects (h : handler) (auth : Option (String × String))
    (sns : snsMsg) (msg : payload) (b : bounceInfo) (c : complaintInfo)
    (k : String) (q : List String)
    (hauth : ¬ (h.user ≠ "" ∧ h.pass ≠ "" ∧ authOk h auth = false))
    (hsns : sns.type = "Notification")
    (htype : msg.type = "Bounce" ∨ msg.type = "Complaint")
    (hres : resolveQueue h.m msg.mail.source = some (k, q))
    (hb : msg.bounce = some b) (hbp : b.type = "Permanent")
    (hc : msg.complaint = some c)
    (hcap : q.length + b.recipients.length + c.recipients.length ≤ queueCap) :
    (ServeHTTP h auth (some sns) (some msg)).bounceEnqueued
        = b.recipients.map (fun r => r.email) ∧
    (ServeHTTP h auth (some sns) (some msg)).complaintEnqueued
        = c.recipients.map (fun r => r.email) ∧
    lookupKey (ServeHTTP h auth (some sns) (some msg)).registry k
        = some (q ++ b.recipients.map (fun r => r.email)
                  ++ c.recipients.map (fun r => r.email)) ∧
    ServeHTTP h auth (some sns) (some { msg with type := "Bounce" })
        = ServeHTTP h auth (some sns) (some { msg with type := "Complaint" }) := by
  rw [ServeHTTP_actionable h auth sns msg hauth hsns htype,
      handleActionable_resolved h msg k q hres]
  have hsome : (lookupKey h.m k).isSome := by
    rw [resolveQueue_lookup h.m msg.mail.source k q hres]; rfl
  have hbd : bounceToDispatch msg = b.recipients := by
    simp [bounceToDispatch, hb, hbp]
  have hcd : complaintToDispatch msg = c.recipients := by
    simp [complaintToDispatch, hc]
  have hb1 : runQueue (fun r => r.email) q b.recipients
      = (q ++ b.recipients.map (fun r => r.email), b.recipients.map fun r => (r, true)) :=
    runQueue_all _ _ q (by omega)
  have hlen : (q ++ b.recipients.map (fun r => r.email)).length
      + c.recipients.length ≤ queueCap := by
    rw [List.length_append, List.length_map]; omega
  have hc1 : runQueue (fun r => r.email) (q ++ b.recipients.map (fun r => r.email))
      c.recipients
      = ((q ++ b.recipients.map (fun r => r.email))
           ++ c.recipients.map (fun r => r.email),
         c.recipients.map fun r => (r, true)) :=
    runQueue_all _ _ _ hlen
  simp only [hbd, hcd, hb1, hc1]
  refine ⟨by simp [accEmails_true], by simp [accEmails_true], ?_, ?_⟩
  · rw [lookupKey_setQueue_self _ _ _ hsome]
  · rw [ServeHTTP_actionable h auth sns _ hauth hsns (Or.inl rfl),
        ServeHTTP_actionable h auth sns _ hauth hsns (Or.inr rfl)]
    rfl

def wMsgBoth : payload :=
  { type := "Bounce", mail := { source := "s@x" }, bounce := some wBounce,
    complaint := some wComplaint }

/-- C10 witness: a "Bounce"-typed payload carrying both a Permanent
bounce object and a complaint object enqueues the bounce recipients and
also the complaint recipients, in that order. -/
theorem dispatch_by_subobjects_witness :
    (ServeHTTP wHandler none (some wSns) (some wMsgBoth)).bounceEnqueued
        = ["r1@x", "r2@x"] ∧
    (ServeHTTP wHandler none (some wSns) (some wMsgBoth)).complaintEnqueued
        = ["c1@x", "c2@x"] := by
  have h := dispatch_by_subobjects wHandler none wSns wMsgBoth wBounce wComplaint
    "s@x" [] (by decide) rfl (Or.inl rfl) (by decide) rfl rfl rfl (by decide)
  exact ⟨by simpa using h.1, by simpa using h.2.1⟩
